import Mathlib

/-!
Shallow embedding of `py4j/signals.py`: the `Signal` publish/subscribe class
with `make_id`, `connect`, `disconnect`, `send`, `_get_receivers` and
`_get_id`.

Modelling choices, recorded once here:

* Python object identity (`id(x)`) is modelled as a natural number; distinct
  live objects have distinct identities, hypotheses state this where needed.
* A receiver callable is either a bound method (owning instance identity plus
  underlying function identity, the two components `ismethod` exposes through
  `__self__` and `__func__`) or a plain callable with its own identity.
* Disambiguator (`unique_id`) values are Python values drawn from the kinds a
  caller plausibly passes: `None`, ints, bools, strings, and other objects
  (compared by identity, the default `object.__eq__`). Python's `==` on these
  identifies `True` with `1` and `False` with `0` (bool is a subclass of int),
  which `pyNorm` captures; `if unique_id:` truthiness is `truthy`.
* `NONE_ID = make_id(None)` is the interpreter-assigned identity of the `None`
  singleton. No caller-supplied disambiguator is the `None` object itself (that
  would be falsy anyway), and live objects never share `None`'s identity, so
  the sentinel slot is modelled as a dedicated constructor `UidSlot.noneId`
  distinct from every caller value.
* The `threading.Lock` serialises registry operations; the sequential
  embedding models each operation as an atomic state transition. Registry
  mutation performed between or during receiver invocations (by reentrant
  receivers, or by other threads while `send` holds no lock) is modelled by
  letting the receiver behaviour thread the `Signal` state through dispatch.
-/

/-- A Python object identity, the value of `id(x)`. -/
abbrev ObjId := Nat

/-- A receiver callable: a bound method (`ismethod` true) carries its owning
instance's identity and its underlying function's identity; any other callable
is identified by its own identity. -/
inductive Callable where
  | method (selfId : ObjId) (funcId : ObjId)
  | function (objId : ObjId)
deriving DecidableEq, Repr

/-- The result type of `make_id`: either the tuple
`(id(func.__self__), id(func.__func__))` or the plain `id(func)`. Python `==`
never identifies an int with a tuple, so structural equality is faithful. -/
inductive MakeId where
  | pair (selfId : ObjId) (funcId : ObjId)
  | single (objId : ObjId)
deriving DecidableEq, Repr

/-- `make_id(func)`: `(id(func.__self__), id(func.__func__))` for a bound
method, `id(func)` otherwise. -/
def make_id : Callable → MakeId
  | .method s f => .pair s f
  | .function o => .single o

/-- A Python value usable as a `unique_id` disambiguator. `vobj` covers
objects compared by identity (default `object.__eq__`). -/
inductive PyVal where
  | vnone
  | vint (n : Int)
  | vbool (b : Bool)
  | vstr (s : String)
  | vobj (i : ObjId)
deriving DecidableEq, Repr

/-- Python truthiness (`if v:`): `None`, `0`, `False` and `""` are falsy;
default objects are truthy. -/
def truthy : PyVal → Bool
  | .vnone => false
  | .vint n => decide (n ≠ 0)
  | .vbool b => b
  | .vstr s => decide (s ≠ "")
  | .vobj _ => true

/-- Normal form for Python `==` on `PyVal`: `bool` is a subclass of `int`
(`True == 1`, `False == 0`); all other kinds compare structurally and never
across kinds. -/
def pyNorm : PyVal → PyVal
  | .vbool b => .vint (if b then 1 else 0)
  | v => v

/-- Python `==` on disambiguator values. -/
def pyEq (a b : PyVal) : Bool := decide (pyNorm a = pyNorm b)

/-- The second slot of a full identity: either the `NONE_ID` sentinel (the
identity of `None`, used when `unique_id` is falsy) or the caller's
`unique_id` value. -/
inductive UidSlot where
  | noneId
  | uid (v : PyVal)
deriving DecidableEq, Repr

/-- `NONE_ID = make_id(None)`, modelled as the dedicated sentinel slot. -/
def NONE_ID : UidSlot := .noneId

/-- A full receiver identity, the tuple `_get_id` builds. -/
abbrev FullId := MakeId × UidSlot

/-- Normalise the `unique_id` slot for Python `==`. -/
def normSlot : UidSlot → UidSlot
  | .noneId => .noneId
  | .uid v => .uid (pyNorm v)

/-- Normalise a full identity for Python `==`. -/
def normKey (k : FullId) : FullId := (k.1, normSlot k.2)

/-- Python `==` on full identities: tuples compare componentwise, ints by
value with bool-int identification. -/
def fullIdEq (a b : FullId) : Bool := decide (normKey a = normKey b)

/-- The `Signal` state: the ordered registry `self.receivers` of
`(full_id, receiver)` entries. The lock is not part of the sequential state. -/
structure Signal where
  receivers : List (FullId × Callable)
deriving DecidableEq, Repr

namespace Signal

/-- `Signal.__init__`: empty registry. -/
def init : Signal := ⟨[]⟩

/-- `Signal._get_id(receiver, unique_id)`: pair `make_id(receiver)` with the
`unique_id` when it is truthy, with `NONE_ID` otherwise. -/
def get_id (receiver : Callable) (unique_id : PyVal) : FullId :=
  if truthy unique_id then (make_id receiver, .uid unique_id)
  else (make_id receiver, NONE_ID)

/-- `Signal.connect(receiver, unique_id)`: scan the registry for an entry whose
identity equals the computed `full_id`; if found do nothing, else append
`(full_id, receiver)`. -/
def connect (st : Signal) (receiver : Callable) (unique_id : PyVal) : Signal :=
  let full_id := get_id receiver unique_id
  if st.receivers.any (fun x => fullIdEq x.1 full_id) then st
  else { receivers := st.receivers ++ [(full_id, receiver)] }

/-- The loop body of `Signal.disconnect`: scan by index for the first entry
whose identity equals the key, delete it and break; report whether a deletion
happened. -/
def removeFirst (l : List (FullId × Callable)) (k : FullId) :
    List (FullId × Callable) × Bool :=
  match l with
  | [] => ([], false)
  | x :: rest =>
    if fullIdEq x.1 k then (rest, true)
    else
      let r := removeFirst rest k
      (x :: r.1, r.2)

/-- `Signal.disconnect(receiver, unique_id)`: remove the first entry matching
the computed `full_id`, returning the new state and the `disconnected` flag. -/
def disconnect (st : Signal) (receiver : Callable) (unique_id : PyVal) :
    Signal × Bool :=
  let full_id := get_id receiver unique_id
  let r := removeFirst st.receivers full_id
  ({ receivers := r.1 }, r.2)

/-- `Signal._get_receivers()`: copy out the receiver callables, identities
dropped, in registry order. -/
def get_receivers (st : Signal) : List Callable :=
  st.receivers.map (fun x => x.2)

end Signal

/-- Keyword parameters of a `send` call (`**params`). -/
abbrev Params := List (String × PyVal)

/-- One receiver invocation as `send` performs it: the receiver called with
`signal=self` (the Signal object's identity), `sender=sender`, and all entries
of `params`. -/
structure CallRecord where
  receiver : Callable
  signal : ObjId
  sender : PyVal
  params : Params
deriving DecidableEq, Repr

/-- The behaviour of receiver code: given the invocation arguments and the
current `Signal` state (which a reentrant receiver may mutate through
`connect`/`disconnect`, and which other threads may mutate while `send` holds
no lock), produce the next state and either a normal response or a raised
exception. -/
abbrev Behave := Callable → ObjId → PyVal → Params → Signal →
    Signal × Except PyVal PyVal

/-- The dispatch loop of `Signal.send`: invoke each snapshot receiver in
order, recording every invocation made; a raised exception aborts the loop,
discards the accumulated responses, and propagates. Returns the final state,
the invocation trace, and the outcome. -/
def sendLoop (behave : Behave) (selfId : ObjId) (sender : PyVal)
    (params : Params) :
    List Callable → Signal →
      Signal × List CallRecord × Except PyVal (List (Callable × PyVal))
  | [], st => (st, [], .ok [])
  | r :: rest, st =>
    let step := behave r selfId sender params st
    match step.2 with
    | .error e => (step.1, [⟨r, selfId, sender, params⟩], .error e)
    | .ok v =>
      let next := sendLoop behave selfId sender params rest step.1
      (next.1, ⟨r, selfId, sender, params⟩ :: next.2.1,
        match next.2.2 with
        | .error e => .error e
        | .ok l => .ok ((r, v) :: l))

/-- `Signal.send(sender, **params)`: snapshot the receiver callables from the
current registry via `_get_receivers`, then run the dispatch loop over the
snapshot. `selfId` is the identity of the Signal object passed as the
`signal` keyword argument. -/
def Signal.send (st : Signal) (selfId : ObjId) (sender : PyVal)
    (params : Params) (behave : Behave) :
    Signal × List CallRecord × Except PyVal (List (Callable × PyVal)) :=
  sendLoop behave selfId sender params (st.get_receivers) st

/-- Dispatch over a fixed receiver list with state-independent receiver
outcomes: the reference describing what a `send` call does once its snapshot
is taken, independent of any registry mutation. -/
def pureDispatch (g : Callable → Except PyVal PyVal) (selfId : ObjId)
    (sender : PyVal) (params : Params) :
    List Callable → List CallRecord × Except PyVal (List (Callable × PyVal))
  | [] => ([], .ok [])
  | r :: rest =>
    match g r with
    | .error e => ([⟨r, selfId, sender, params⟩], .error e)
    | .ok v =>
      let next := pureDispatch g selfId sender params rest
      (⟨r, selfId, sender, params⟩ :: next.1,
        match next.2 with
        | .error e => .error e
        | .ok l => .ok ((r, v) :: l))

/-- The uniqueness invariant: identities in the registry are pairwise
distinct under Python `==`. -/
def KeysDistinct (st : Signal) : Prop :=
  st.receivers.Pairwise (fun a b => fullIdEq a.1 b.1 = false)

instance (st : Signal) : Decidable (KeysDistinct st) := by
  unfold KeysDistinct
  infer_instance

/-- Number of registry entries whose identity equals `k` under Python `==`. -/
def countKey (st : Signal) (k : FullId) : Nat :=
  (st.receivers.filter (fun x => fullIdEq x.1 k)).length

/-- States reachable by any sequence of `connect` and `disconnect` operations
from a freshly constructed `Signal`. -/
inductive Reachable : Signal → Prop where
  | init : Reachable Signal.init
  | connect (st : Signal) (r : Callable) (u : PyVal) :
      Reachable st → Reachable (Signal.connect st r u)
  | disconnect (st : Signal) (r : Callable) (u : PyVal) :
      Reachable st → Reachable (Signal.disconnect st r u).1

/-! ## Helper lemmas -/

theorem fullIdEq_refl (k : FullId) : fullIdEq k k = true := by
  simp [fullIdEq]

theorem fullIdEq_eq_true_iff {a b : FullId} :
    fullIdEq a b = true ↔ normKey a = normKey b := by
  simp [fullIdEq]

theorem fullIdEq_eq_false_iff {a b : FullId} :
    fullIdEq a b = false ↔ normKey a ≠ normKey b := by
  simp [fullIdEq]

/-- If `a` matches key `k` but `a` and `b` do not match, then `b` does not
match `k` either. -/
theorem fullIdEq_trans_left {a b k : FullId} (h1 : fullIdEq a k = true)
    (h2 : fullIdEq a b = false) : fullIdEq b k = false := by
  rw [fullIdEq_eq_true_iff] at h1
  rw [fullIdEq_eq_false_iff] at h2 ⊢
  rw [← h1]
  exact fun hbk => h2 hbk.symm

theorem connect_of_contains {st : Signal} {r : Callable} {u : PyVal}
    (h : st.receivers.any (fun x => fullIdEq x.1 (Signal.get_id r u)) = true) :
    Signal.connect st r u = st := by
  simp [Signal.connect, h]

theorem connect_of_not_contains {st : Signal} {r : Callable} {u : PyVal}
    (h : st.receivers.any (fun x => fullIdEq x.1 (Signal.get_id r u)) = false) :
    Signal.connect st r u =
      ⟨st.receivers ++ [(Signal.get_id r u, r)]⟩ := by
  simp [Signal.connect, h]

theorem contains_connect (st : Signal) (r : Callable) (u : PyVal) :
    (Signal.connect st r u).receivers.any
      (fun x => fullIdEq x.1 (Signal.get_id r u)) = true := by
  by_cases h : st.receivers.any (fun x => fullIdEq x.1 (Signal.get_id r u)) = true
  · rw [connect_of_contains h]; exact h
  · rw [Bool.not_eq_true] at h
    rw [connect_of_not_contains h]
    simp [List.any_append, fullIdEq_refl]

/-- Connecting the same `(receiver, unique_id)` a second time is a no-op. -/
theorem connect_connect (st : Signal) (r : Callable) (u : PyVal) :
    Signal.connect (Signal.connect st r u) r u = Signal.connect st r u :=
  connect_of_contains (contains_connect st r u)

theorem countKey_eq_zero {st : Signal} {k : FullId}
    (h : st.receivers.any (fun x => fullIdEq x.1 k) = false) :
    countKey st k = 0 := by
  simp only [List.any_eq_false] at h
  simp only [countKey, List.length_eq_zero, List.filter_eq_nil_iff]
  intro x hx
  simpa using h x hx

theorem countKey_pos {st : Signal} {k : FullId}
    (h : st.receivers.any (fun x => fullIdEq x.1 k) = true) :
    1 ≤ countKey st k := by
  simp only [List.any_eq_true] at h
  obtain ⟨x, hx, hmatch⟩ := h
  have : x ∈ st.receivers.filter (fun x => fullIdEq x.1 k) :=
    List.mem_filter.mpr ⟨hx, hmatch⟩
  exact List.length_pos.mpr (List.ne_nil_of_mem this)

theorem countKey_le_one {st : Signal} (h : KeysDistinct st) (k : FullId) :
    countKey st k ≤ 1 := by
  unfold countKey
  unfold KeysDistinct at h
  revert h
  induction st.receivers with
  | nil => intro h; simp
  | cons x rest ih =>
    intro h
    rw [List.pairwise_cons] at h
    obtain ⟨hx, hrest⟩ := h
    by_cases hmatch : fullIdEq x.1 k = true
    · have hfilter : rest.filter (fun y => fullIdEq y.1 k) = [] := by
        rw [List.filter_eq_nil_iff]
        intro y hy
        simp only [Bool.not_eq_true]
        exact fullIdEq_trans_left hmatch (hx y hy)
      simp [List.filter_cons, hmatch, hfilter]
    · rw [Bool.not_eq_true] at hmatch
      simp only [List.filter_cons, hmatch]
      simp only [Bool.false_eq_true, if_false]
      exact ih hrest

theorem keysDistinct_connect {st : Signal} (h : KeysDistinct st)
    (r : Callable) (u : PyVal) : KeysDistinct (Signal.connect st r u) := by
  by_cases hc : st.receivers.any (fun x => fullIdEq x.1 (Signal.get_id r u)) = true
  · rw [connect_of_contains hc]; exact h
  · rw [Bool.not_eq_true] at hc
    rw [connect_of_not_contains hc]
    unfold KeysDistinct at h ⊢
    rw [List.pairwise_append]
    refine ⟨h, by simp, ?_⟩
    intro a ha b hb
    simp only [List.mem_singleton] at hb
    subst hb
    simp only [List.any_eq_false] at hc
    simpa using hc a ha

theorem removeFirst_sublist (l : List (FullId × Callable)) (k : FullId) :
    (Signal.removeFirst l k).1.Sublist l := by
  induction l with
  | nil => simp [Signal.removeFirst]
  | cons x rest ih =>
    by_cases hmatch : fullIdEq x.1 k = true
    · simp [Signal.removeFirst, hmatch]
    · rw [Bool.not_eq_true] at hmatch
      simp only [Signal.removeFirst, hmatch]
      simp only [Bool.false_eq_true, if_false]
      exact List.Sublist.cons₂ x ih

theorem keysDistinct_disconnect {st : Signal} (h : KeysDistinct st)
    (r : Callable) (u : PyVal) :
    KeysDistinct (Signal.disconnect st r u).1 := by
  unfold KeysDistinct at h ⊢
  unfold Signal.disconnect
  exact List.Pairwise.sublist (removeFirst_sublist _ _) h


theorem removeFirst_no_match {k : FullId} {l : List (FullId × Callable)}
    (h : ∀ x ∈ l, fullIdEq x.1 k = false) :
    Signal.removeFirst l k = (l, false) := by
  induction l with
  | nil => rfl
  | cons x rest ih =>
    have hx : fullIdEq x.1 k = false := h x (by simp)
    simp only [Signal.removeFirst, hx, Bool.false_eq_true, if_false]
    rw [ih (fun y hy => h y (by simp [hy]))]

theorem removeFirst_first_match {k : FullId} (pre post : List (FullId × Callable))
    (e : FullId × Callable)
    (hpre : ∀ x ∈ pre, fullIdEq x.1 k = false) (he : fullIdEq e.1 k = true) :
    Signal.removeFirst (pre ++ e :: post) k = (pre ++ post, true) := by
  induction pre with
  | nil => simp [Signal.removeFirst, he]
  | cons x rest ih =>
    have hx : fullIdEq x.1 k = false := hpre x (by simp)
    have ih2 := ih (fun y hy => hpre y (by simp [hy]))
    simp [List.cons_append, Signal.removeFirst, hx, ih2]

/-! ## Claims -/

/-- C3: for every Signal state satisfying the registry uniqueness invariant,
calling `connect` twice with the same `(receiver, unique_id)` pair leaves
exactly one registry entry for its identity key: the second `connect` is a
no-op and the registry is unchanged by it. -/
theorem c3_idempotent_connect (st : Signal) (r : Callable) (u : PyVal)
    (h : KeysDistinct st) :
    Signal.connect (Signal.connect st r u) r u = Signal.connect st r u
    ∧ countKey (Signal.connect (Signal.connect st r u) r u)
        (Signal.get_id r u) = 1 := by
  refine ⟨connect_connect st r u, ?_⟩
  rw [connect_connect]
  have h1 := countKey_pos (contains_connect st r u)
  have h2 := countKey_le_one (keysDistinct_connect h r u) (Signal.get_id r u)
  omega

/-- Witness for C3 at the empty signal and a concrete receiver. -/
theorem c3_witness :
    KeysDistinct Signal.init
    ∧ (Signal.connect (Signal.connect Signal.init (.function 3) (.vstr "a"))
        (.function 3) (.vstr "a") =
        Signal.connect Signal.init (.function 3) (.vstr "a")
      ∧ countKey (Signal.connect
          (Signal.connect Signal.init (.function 3) (.vstr "a"))
          (.function 3) (.vstr "a"))
          (Signal.get_id (.function 3) (.vstr "a")) = 1) :=
  ⟨List.Pairwise.nil,
   c3_idempotent_connect Signal.init (.function 3) (.vstr "a")
     List.Pairwise.nil⟩

/-- C4: on a state satisfying the uniqueness invariant whose registry holds a
matching entry `e` first matched after the non-matching prefix `pre`,
`disconnect` removes exactly that entry (stopping at the first match, leaving
all other entries and their order intact) and returns true; a second
`disconnect` for the same key, with no intervening `connect`, returns false
and changes nothing. -/
theorem c4_disconnect_spec (st : Signal) (r : Callable) (u : PyVal)
    (pre post : List (FullId × Callable)) (e : FullId × Callable)
    (hKD : KeysDistinct st)
    (hsplit : st.receivers = pre ++ e :: post)
    (he : fullIdEq e.1 (Signal.get_id r u) = true)
    (hpre : ∀ x ∈ pre, fullIdEq x.1 (Signal.get_id r u) = false) :
    Signal.disconnect st r u = (⟨pre ++ post⟩, true)
    ∧ Signal.disconnect ⟨pre ++ post⟩ r u = (⟨pre ++ post⟩, false) := by
  have hpost : ∀ x ∈ post, fullIdEq x.1 (Signal.get_id r u) = false := by
    unfold KeysDistinct at hKD
    rw [hsplit, List.pairwise_append] at hKD
    obtain ⟨-, h2, -⟩ := hKD
    rw [List.pairwise_cons] at h2
    intro x hx
    exact fullIdEq_trans_left he (h2.1 x hx)
  constructor
  · simp only [Signal.disconnect]
    rw [hsplit, removeFirst_first_match pre post e hpre he]
  · simp only [Signal.disconnect]
    rw [removeFirst_no_match (k := Signal.get_id r u)
      (l := pre ++ post) ?_]
    intro x hx
    rcases List.mem_append.mp hx with hmem | hmem
    · exact hpre x hmem
    · exact hpost x hmem

/-- Witness for C4: a two-entry registry, disconnecting the first entry. -/
theorem c4_witness :
    KeysDistinct
      (Signal.mk
        [(Signal.get_id (Callable.function 1) (PyVal.vstr "a"),
            Callable.function 1),
          (Signal.get_id (Callable.function 1) (PyVal.vstr "b"),
            Callable.function 1)])
    ∧ (Signal.mk
        [(Signal.get_id (Callable.function 1) (PyVal.vstr "a"),
            Callable.function 1),
          (Signal.get_id (Callable.function 1) (PyVal.vstr "b"),
            Callable.function 1)]).receivers
        = [] ++ (Signal.get_id (Callable.function 1) (PyVal.vstr "a"),
            Callable.function 1) ::
            [(Signal.get_id (Callable.function 1) (PyVal.vstr "b"),
              Callable.function 1)]
    ∧ fullIdEq (Signal.get_id (Callable.function 1) (PyVal.vstr "a"))
        (Signal.get_id (Callable.function 1) (PyVal.vstr "a")) = true
    ∧ (Signal.disconnect
        (Signal.mk
          [(Signal.get_id (Callable.function 1) (PyVal.vstr "a"),
              Callable.function 1),
            (Signal.get_id (Callable.function 1) (PyVal.vstr "b"),
              Callable.function 1)])
        (Callable.function 1) (PyVal.vstr "a") =
        (Signal.mk ([] ++ [(Signal.get_id (Callable.function 1) (PyVal.vstr "b"),
            Callable.function 1)]), true)
      ∧ Signal.disconnect
          (Signal.mk ([] ++ [(Signal.get_id (Callable.function 1) (PyVal.vstr "b"),
              Callable.function 1)]))
          (Callable.function 1) (PyVal.vstr "a") =
          (Signal.mk ([] ++ [(Signal.get_id (Callable.function 1) (PyVal.vstr "b"),
              Callable.function 1)]), false)) :=
  ⟨by decide, by decide, by decide,
   c4_disconnect_spec _ (Callable.function 1) (PyVal.vstr "a") []
     [(Signal.get_id (Callable.function 1) (PyVal.vstr "b"),
        Callable.function 1)]
     (Signal.get_id (Callable.function 1) (PyVal.vstr "a"),
        Callable.function 1)
     (by decide) rfl (by decide) (by decide)⟩

/-- C6: every state reachable by a sequence of `connect` and `disconnect`
operations from the empty Signal has pairwise distinct identity keys in its
registry. -/
theorem c6_reachable_unique (st : Signal) (h : Reachable st) :
    KeysDistinct st := by
  induction h with
  | init => exact List.Pairwise.nil
  | connect st r u _ ih => exact keysDistinct_connect ih r u
  | disconnect st r u _ ih => exact keysDistinct_disconnect ih r u

/-- Witness for C6 on a concrete reachable state built by two connects and a
disconnect. -/
theorem c6_witness :
    KeysDistinct (Signal.disconnect
      (Signal.connect (Signal.connect Signal.init (.function 1) .vnone)
        (.method 2 3) (.vint 7))
      (.function 1) .vnone).1 :=
  c6_reachable_unique _
    (Reachable.disconnect _ _ _
      (Reachable.connect _ _ _ (Reachable.connect _ _ _ Reachable.init)))

/-- C7: `make_id` maps a bound method to the pair (owning-instance identity,
underlying-function identity) and a plain callable to its own identity; bound
methods of two different instances never resolve to the same key, and the
same bound method always resolves to the same key. -/
theorem c7_make_id_resolution (i1 f1 i2 f2 o : ObjId) (h : i1 ≠ i2) :
    make_id (.method i1 f1) = .pair i1 f1
    ∧ make_id (.function o) = .single o
    ∧ make_id (.method i1 f1) ≠ make_id (.method i2 f2)
    ∧ make_id (.method i1 f1) = make_id (.method i1 f1) := by
  refine ⟨rfl, rfl, ?_, rfl⟩
  simp only [make_id, ne_eq, MakeId.pair.injEq, not_and]
  intro h12
  exact absurd h12 h

/-- Witness for C7 at concrete identities: two instances sharing the
underlying function. -/
theorem c7_witness :
    (1 : ObjId) ≠ 2
    ∧ (make_id (.method 1 5) = .pair 1 5
      ∧ make_id (.function 9) = .single 9
      ∧ make_id (.method 1 5) ≠ make_id (.method 2 5)
      ∧ make_id (.method 1 5) = make_id (.method 1 5)) :=
  ⟨by decide, c7_make_id_resolution 1 5 2 5 9 (by decide)⟩

theorem connect_congr (st : Signal) (r : Callable) {u1 u2 : PyVal}
    (h : Signal.get_id r u1 = Signal.get_id r u2) :
    Signal.connect st r u1 = Signal.connect st r u2 := by
  unfold Signal.connect
  rw [h]

theorem disconnect_congr (st : Signal) (r : Callable) {u1 u2 : PyVal}
    (h : Signal.get_id r u1 = Signal.get_id r u2) :
    Signal.disconnect st r u1 = Signal.disconnect st r u2 := by
  unfold Signal.disconnect
  rw [h]

/-- C9: a falsy `unique_id` (0, False, "", None) yields the same identity key
as omitting it, so `connect` and `disconnect` behave identically, and a
registration with a falsy disambiguator together with one with no
disambiguator form a single entry. -/
theorem c9_falsy_disambiguator (st : Signal) (r : Callable) (d : PyVal)
    (h : truthy d = false) :
    Signal.get_id r d = Signal.get_id r .vnone
    ∧ Signal.connect st r d = Signal.connect st r .vnone
    ∧ Signal.disconnect st r d = Signal.disconnect st r .vnone
    ∧ Signal.connect (Signal.connect st r .vnone) r d =
        Signal.connect st r .vnone := by
  have hid : Signal.get_id r d = Signal.get_id r .vnone := by
    unfold Signal.get_id
    rw [h]
    rfl
  refine ⟨hid, connect_congr st r hid, disconnect_congr st r hid, ?_⟩
  rw [connect_congr _ r hid, connect_connect]

/-- Witness for C9 with the falsy disambiguator 0 at a one-entry state. -/
theorem c9_witness :
    truthy (.vint 0) = false
    ∧ (Signal.get_id (.function 4) (.vint 0) =
        Signal.get_id (.function 4) .vnone
      ∧ Signal.connect ⟨[(Signal.get_id (.function 7) .vnone, .function 7)]⟩
          (.function 4) (.vint 0) =
          Signal.connect ⟨[(Signal.get_id (.function 7) .vnone, .function 7)]⟩
          (.function 4) .vnone
      ∧ Signal.disconnect ⟨[(Signal.get_id (.function 7) .vnone, .function 7)]⟩
          (.function 4) (.vint 0) =
          Signal.disconnect ⟨[(Signal.get_id (.function 7) .vnone, .function 7)]⟩
          (.function 4) .vnone
      ∧ Signal.connect (Signal.connect
          ⟨[(Signal.get_id (.function 7) .vnone, .function 7)]⟩
          (.function 4) .vnone) (.function 4) (.vint 0) =
          Signal.connect ⟨[(Signal.get_id (.function 7) .vnone, .function 7)]⟩
          (.function 4) .vnone) :=
  ⟨by decide,
   c9_falsy_disambiguator ⟨[(Signal.get_id (.function 7) .vnone, .function 7)]⟩
     (.function 4) (.vint 0) (by decide)⟩

theorem sendLoop_all_ok (behave : Behave) (selfId : ObjId) (sender : PyVal)
    (params : Params) (f : Callable → PyVal) (l : List Callable) (st : Signal)
    (h : ∀ c ∈ l, ∀ s : Signal,
      (behave c selfId sender params s).2 = .ok (f c)) :
    (sendLoop behave selfId sender params l st).2 =
      (l.map (fun c => ⟨c, selfId, sender, params⟩),
       Except.ok (l.map (fun c => (c, f c)))) := by
  induction l generalizing st with
  | nil => rfl
  | cons c rest ih =>
    have hc := h c (by simp) st
    have ihr := ih ((behave c selfId sender params st).1)
      (fun y hy s => h y (by simp [hy]) s)
    simp only [sendLoop, hc]
    simp [ihr]

theorem sendLoop_fail (behave : Behave) (selfId : ObjId) (sender : PyVal)
    (params : Params) (f : Callable → PyVal) (e : PyVal) (rk : Callable)
    (pre post : List Callable) (st : Signal)
    (hpre : ∀ c ∈ pre, ∀ s : Signal,
      (behave c selfId sender params s).2 = .ok (f c))
    (herr : ∀ s : Signal, (behave rk selfId sender params s).2 = .error e) :
    (sendLoop behave selfId sender params (pre ++ rk :: post) st).2 =
      ((pre ++ [rk]).map (fun c => ⟨c, selfId, sender, params⟩),
       Except.error e) := by
  induction pre generalizing st with
  | nil =>
    simp only [List.nil_append, sendLoop, herr st]
    simp
  | cons c rest ih =>
    have hc := hpre c (by simp) st
    have ihr := ih ((behave c selfId sender params st).1)
      (fun y hy s => hpre y (by simp [hy]) s)
    simp only [List.cons_append, sendLoop, hc]
    simp [ihr]

theorem sendLoop_pure (behave : Behave) (g : Callable → Except PyVal PyVal)
    (selfId : ObjId) (sender : PyVal) (params : Params) (l : List Callable)
    (st : Signal)
    (h : ∀ (c : Callable) (s : Signal),
      (behave c selfId sender params s).2 = g c) :
    (sendLoop behave selfId sender params l st).2 =
      pureDispatch g selfId sender params l := by
  induction l generalizing st with
  | nil => rfl
  | cons c rest ih =>
    have ihr := ih ((behave c selfId sender params st).1)
    cases hg : g c with
    | error e =>
      have hc := h c st
      rw [hg] at hc
      simp only [sendLoop, pureDispatch, hc, hg]
    | ok v =>
      have hc := h c st
      rw [hg] at hc
      simp only [sendLoop, pureDispatch, hc, hg]
      simp [ihr]

theorem sendLoop_preserves_state (behave : Behave) (selfId : ObjId)
    (sender : PyVal) (params : Params) (l : List Callable) (st : Signal)
    (h : ∀ (c : Callable) (s : Signal),
      (behave c selfId sender params s).1 = s) :
    (sendLoop behave selfId sender params l st).1 = st := by
  induction l generalizing st with
  | nil => rfl
  | cons c rest ih =>
    have ihr := ih ((behave c selfId sender params st).1)
    cases hres : (behave c selfId sender params st).2 with
    | error e => simp only [sendLoop, hres]; exact h c st
    | ok v =>
      simp only [sendLoop, hres]
      rw [ihr]
      exact h c st

/-- C1: with no receiver failing, `send` invokes every registered receiver
exactly once, in registration order, passing each the Signal itself, the
sender, and all entries of `params`, and returns the (receiver, value) pairs
in that same order. -/
theorem c1_send_dispatch (st : Signal) (selfId : ObjId) (sender : PyVal)
    (params : Params) (behave : Behave) (f : Callable → PyVal)
    (h : ∀ c ∈ st.get_receivers, ∀ s : Signal,
      (behave c selfId sender params s).2 = .ok (f c)) :
    (Signal.send st selfId sender params behave).2 =
      (st.get_receivers.map (fun c => ⟨c, selfId, sender, params⟩),
       Except.ok (st.get_receivers.map (fun c => (c, f c)))) :=
  sendLoop_all_ok behave selfId sender params f st.get_receivers st h

/-- Receiver behaviour that always succeeds and never touches the registry. -/
def okBehave : Behave := fun _ _ _ _ s => (s, Except.ok (PyVal.vint 42))

/-- Witness for C1: two registered receivers, both succeeding. -/
theorem c1_witness :
    (Signal.send
      (Signal.mk [(Signal.get_id (Callable.function 1) PyVal.vnone,
          Callable.function 1),
        (Signal.get_id (Callable.method 2 3) PyVal.vnone,
          Callable.method 2 3)])
      9 (PyVal.vstr "sender") [("x", PyVal.vint 1)] okBehave).2 =
      ((Signal.mk [(Signal.get_id (Callable.function 1) PyVal.vnone,
          Callable.function 1),
        (Signal.get_id (Callable.method 2 3) PyVal.vnone,
          Callable.method 2 3)]).get_receivers.map
        (fun c => ⟨c, 9, PyVal.vstr "sender", [("x", PyVal.vint 1)]⟩),
       Except.ok ((Signal.mk [(Signal.get_id (Callable.function 1) PyVal.vnone,
          Callable.function 1),
        (Signal.get_id (Callable.method 2 3) PyVal.vnone,
          Callable.method 2 3)]).get_receivers.map
          (fun c => (c, PyVal.vint 42)))) :=
  c1_send_dispatch _ 9 (PyVal.vstr "sender") [("x", PyVal.vint 1)] okBehave
    (fun _ => PyVal.vint 42) (fun _ _ _ => rfl)

/-- C2: if the k-th snapshot receiver fails, receivers 1..k-1 and k are the
only ones invoked, in order, and `send` yields exactly the raised error —
not the partial (receiver, result) list accumulated before the failure. -/
theorem c2_send_fail_fast (st : Signal) (selfId : ObjId) (sender : PyVal)
    (params : Params) (behave : Behave) (f : Callable → PyVal) (e : PyVal)
    (rk : Callable) (pre post : List Callable)
    (hsplit : st.get_receivers = pre ++ rk :: post)
    (hpre : ∀ c ∈ pre, ∀ s : Signal,
      (behave c selfId sender params s).2 = .ok (f c))
    (herr : ∀ s : Signal, (behave rk selfId sender params s).2 = .error e) :
    (Signal.send st selfId sender params behave).2 =
      ((pre ++ [rk]).map (fun c => ⟨c, selfId, sender, params⟩),
       Except.error e) := by
  unfold Signal.send
  rw [hsplit]
  exact sendLoop_fail behave selfId sender params f e rk pre post st hpre herr

/-- Receiver behaviour that raises on one designated receiver and succeeds on
every other, never touching the registry. -/
def failOnBehave (bad : Callable) : Behave := fun c _ _ _ s =>
  (s, if c = bad then Except.error (PyVal.vstr "boom")
      else Except.ok (PyVal.vint 42))

/-- Witness for C2: three registered receivers, the middle one failing. -/
theorem c2_witness :
    (Signal.send
      (Signal.mk [(Signal.get_id (Callable.function 1) PyVal.vnone,
          Callable.function 1),
        (Signal.get_id (Callable.function 2) PyVal.vnone, Callable.function 2),
        (Signal.get_id (Callable.function 3) PyVal.vnone, Callable.function 3)])
      9 PyVal.vnone [] (failOnBehave (Callable.function 2))).2 =
      (([Callable.function 1] ++ [Callable.function 2]).map
        (fun c => ⟨c, 9, PyVal.vnone, []⟩),
       Except.error (PyVal.vstr "boom")) :=
  c2_send_fail_fast _ 9 PyVal.vnone [] (failOnBehave (Callable.function 2))
    (fun _ => PyVal.vint 42) (PyVal.vstr "boom") (Callable.function 2)
    [Callable.function 1] [Callable.function 3] rfl
    (by intro c hc s
        simp only [List.mem_singleton] at hc
        subst hc
        rfl)
    (fun s => rfl)

/-- C8: the snapshot taken from the registry at the start of `send` fixes the
dispatch set and order for that call: whatever registry mutations the
receiver behaviour performs between invocations (reentrant or concurrent
`connect`/`disconnect`), the invocation trace and outcome equal dispatch over
the fixed snapshot. -/
theorem c8_snapshot_dispatch (st : Signal) (selfId : ObjId) (sender : PyVal)
    (params : Params) (behave : Behave) (g : Callable → Except PyVal PyVal)
    (h : ∀ (c : Callable) (s : Signal),
      (behave c selfId sender params s).2 = g c) :
    (Signal.send st selfId sender params behave).2 =
      pureDispatch g selfId sender params st.get_receivers :=
  sendLoop_pure behave g selfId sender params st.get_receivers st h

/-- Receiver behaviour that reentrantly connects a new receiver on every
invocation, succeeding with a fixed value. -/
def mutatingBehave : Behave := fun _ _ _ _ s =>
  (Signal.connect s (Callable.function 99) (PyVal.vstr "reentrant"),
   Except.ok PyVal.vnone)

/-- Witness for C8: a receiver that mutates the registry during dispatch does
not change which receivers the in-flight `send` invokes. -/
theorem c8_witness :
    (Signal.send
      (Signal.mk [(Signal.get_id (Callable.function 1) PyVal.vnone,
          Callable.function 1),
        (Signal.get_id (Callable.function 2) PyVal.vnone,
          Callable.function 2)])
      7 PyVal.vnone [] mutatingBehave).2 =
      pureDispatch (fun _ => Except.ok PyVal.vnone) 7 PyVal.vnone []
        (Signal.mk [(Signal.get_id (Callable.function 1) PyVal.vnone,
            Callable.function 1),
          (Signal.get_id (Callable.function 2) PyVal.vnone,
            Callable.function 2)]).get_receivers :=
  c8_snapshot_dispatch _ 7 PyVal.vnone [] mutatingBehave
    (fun _ => Except.ok PyVal.vnone) (fun _ _ => rfl)

/-- C10: when the receivers invoked by a `send` do not themselves mutate the
registry, the registry after `send` returns or fails is identical to the
registry before the call: `send` only reads it. -/
theorem c10_send_preserves_registry (st : Signal) (selfId : ObjId)
    (sender : PyVal) (params : Params) (behave : Behave)
    (h : ∀ (c : Callable) (s : Signal),
      (behave c selfId sender params s).1 = s) :
    (Signal.send st selfId sender params behave).1 = st :=
  sendLoop_preserves_state behave selfId sender params st.get_receivers st h

/-- Witness for C10 on a concrete registry with non-mutating receivers. -/
theorem c10_witness :
    (Signal.send
      (Signal.mk [(Signal.get_id (Callable.function 1) PyVal.vnone,
          Callable.function 1),
        (Signal.get_id (Callable.function 2) (PyVal.vstr "u"),
          Callable.function 2)])
      5 PyVal.vnone [("k", PyVal.vbool true)] okBehave).1 =
      Signal.mk [(Signal.get_id (Callable.function 1) PyVal.vnone,
          Callable.function 1),
        (Signal.get_id (Callable.function 2) (PyVal.vstr "u"),
          Callable.function 2)] :=
  c10_send_preserves_registry _ 5 PyVal.vnone [("k", PyVal.vbool true)]
    okBehave (fun _ _ => rfl)

theorem truthy_pyNorm (v : PyVal) : truthy (pyNorm v) = truthy v := by
  cases v with
  | vbool b => cases b <;> rfl
  | vnone => rfl
  | vint n => rfl
  | vstr s => rfl
  | vobj i => rfl

theorem truthy_congr {a b : PyVal} (h : pyEq a b = true) :
    truthy a = truthy b := by
  have hn : pyNorm a = pyNorm b := by simpa [pyEq] using h
  rw [← truthy_pyNorm a, ← truthy_pyNorm b, hn]

/-- Counterexample to C5 as stated: `0` and `""` are two different
disambiguator values, yet connecting the same callable with them yields a
single registry entry (both are falsy, so `_get_id` collapses both to the
absent-disambiguator key); likewise `1` and `True` are different values that
Python `==` identifies, again yielding a single entry. -/
theorem c5_counterexample :
    (Signal.connect (Signal.connect Signal.init (Callable.function 5)
        (PyVal.vint 0)) (Callable.function 5)
        (PyVal.vstr "")).receivers.length = 1
    ∧ (Signal.connect (Signal.connect Signal.init (Callable.function 5)
        (PyVal.vint 1)) (Callable.function 5)
        (PyVal.vbool true)).receivers.length = 1 := by
  constructor <;> decide

/-- C5 amended: connecting the same callable with two truthy disambiguators
that are not Python-equal produces two distinct registry entries, each
independently disconnectable; connecting again with a disambiguator that is
Python-equal to either resolves to the existing entry, adding nothing. -/
theorem c5_amended_disambiguator_separation (r : Callable) (d1 d2 : PyVal)
    (h1 : truthy d1 = true) (h2 : truthy d2 = true)
    (hne : pyEq d1 d2 = false) :
    (Signal.connect (Signal.connect Signal.init r d1) r d2).receivers =
      [(Signal.get_id r d1, r), (Signal.get_id r d2, r)]
    ∧ Signal.disconnect
        (Signal.connect (Signal.connect Signal.init r d1) r d2) r d1 =
        (⟨[(Signal.get_id r d2, r)]⟩, true)
    ∧ Signal.disconnect
        (Signal.connect (Signal.connect Signal.init r d1) r d2) r d2 =
        (⟨[(Signal.get_id r d1, r)]⟩, true)
    ∧ (∀ d3 : PyVal, pyEq d3 d1 = true ∨ pyEq d3 d2 = true →
        Signal.connect (Signal.connect (Signal.connect Signal.init r d1) r d2)
          r d3 =
          Signal.connect (Signal.connect Signal.init r d1) r d2) := by
  have hk1 : Signal.get_id r d1 = (make_id r, .uid d1) := by
    simp [Signal.get_id, h1]
  have hk2 : Signal.get_id r d2 = (make_id r, .uid d2) := by
    simp [Signal.get_id, h2]
  have hne' : pyNorm d1 ≠ pyNorm d2 := by simpa [pyEq] using hne
  have h12 : fullIdEq (Signal.get_id r d1) (Signal.get_id r d2) = false := by
    simp [hk1, hk2, fullIdEq, normKey, normSlot, hne']
  have hst1 : Signal.connect Signal.init r d1 =
      ⟨[(Signal.get_id r d1, r)]⟩ := by
    simp [Signal.connect, Signal.init]
  have hst2 : Signal.connect (⟨[(Signal.get_id r d1, r)]⟩ : Signal) r d2 =
      ⟨[(Signal.get_id r d1, r), (Signal.get_id r d2, r)]⟩ := by
    simp [Signal.connect, h12]
  have hcontains : ∀ d3 : PyVal, pyEq d3 d1 = true ∨ pyEq d3 d2 = true →
      (Signal.connect (Signal.connect Signal.init r d1) r d2).receivers.any
        (fun x => fullIdEq x.1 (Signal.get_id r d3)) = true := by
    intro d3 hd3
    rw [hst1, hst2]
    rcases hd3 with hd | hd
    · have ht3 : truthy d3 = true := by rw [truthy_congr hd]; exact h1
      have hn : pyNorm d3 = pyNorm d1 := by simpa [pyEq] using hd
      have hk3 : Signal.get_id r d3 = (make_id r, .uid d3) := by
        simp [Signal.get_id, ht3]
      have hmatch : fullIdEq (Signal.get_id r d1) (Signal.get_id r d3) =
          true := by
        simp [hk1, hk3, fullIdEq, normKey, normSlot, hn]
      simp [List.any_cons, hmatch]
    · have ht3 : truthy d3 = true := by rw [truthy_congr hd]; exact h2
      have hn : pyNorm d3 = pyNorm d2 := by simpa [pyEq] using hd
      have hk3 : Signal.get_id r d3 = (make_id r, .uid d3) := by
        simp [Signal.get_id, ht3]
      have hmatch : fullIdEq (Signal.get_id r d2) (Signal.get_id r d3) =
          true := by
        simp [hk2, hk3, fullIdEq, normKey, normSlot, hn]
      simp [List.any_cons, hmatch]
  refine ⟨by rw [hst1, hst2], ?_, ?_, ?_⟩
  · rw [hst1, hst2]
    simp [Signal.disconnect, Signal.removeFirst, fullIdEq_refl]
  · rw [hst1, hst2]
    simp [Signal.disconnect, Signal.removeFirst, h12, fullIdEq_refl]
  · intro d3 hd3
    exact connect_of_contains (hcontains d3 hd3)

/-- Witness for the amended C5: disambiguators `"a"` and `2`. -/
theorem c5_witness :
    truthy (PyVal.vstr "a") = true
    ∧ truthy (PyVal.vint 2) = true
    ∧ pyEq (PyVal.vstr "a") (PyVal.vint 2) = false
    ∧ ((Signal.connect (Signal.connect Signal.init (Callable.function 5)
          (PyVal.vstr "a")) (Callable.function 5) (PyVal.vint 2)).receivers =
        [(Signal.get_id (Callable.function 5) (PyVal.vstr "a"),
            Callable.function 5),
          (Signal.get_id (Callable.function 5) (PyVal.vint 2),
            Callable.function 5)]
      ∧ Signal.disconnect
          (Signal.connect (Signal.connect Signal.init (Callable.function 5)
            (PyVal.vstr "a")) (Callable.function 5) (PyVal.vint 2))
          (Callable.function 5) (PyVal.vstr "a") =
          (⟨[(Signal.get_id (Callable.function 5) (PyVal.vint 2),
              Callable.function 5)]⟩, true)
      ∧ Signal.disconnect
          (Signal.connect (Signal.connect Signal.init (Callable.function 5)
            (PyVal.vstr "a")) (Callable.function 5) (PyVal.vint 2))
          (Callable.function 5) (PyVal.vint 2) =
          (⟨[(Signal.get_id (Callable.function 5) (PyVal.vstr "a"),
              Callable.function 5)]⟩, true)
      ∧ (∀ d3 : PyVal, pyEq d3 (PyVal.vstr "a") = true
            ∨ pyEq d3 (PyVal.vint 2) = true →
          Signal.connect (Signal.connect (Signal.connect Signal.init
            (Callable.function 5) (PyVal.vstr "a")) (Callable.function 5)
            (PyVal.vint 2)) (Callable.function 5) d3 =
            Signal.connect (Signal.connect Signal.init (Callable.function 5)
              (PyVal.vstr "a")) (Callable.function 5) (PyVal.vint 2))) :=
  ⟨by decide, by decide, by decide,
   c5_amended_disambiguator_separation (Callable.function 5) (PyVal.vstr "a")
     (PyVal.vint 2) (by decide) (by decide) (by decide)⟩
